import Mathlib

/-!
Verification development for `gensim/models/phrases.py` (collocation / phrase
detection).  The Python source is shallowly embedded: tokens are canonical byte
strings modelled as `String`, the vocabulary `dict` is an association list with
distinct keys, Python `float` scores are exact rationals `ℚ`, and the
`threshold` float (which may be `+inf`) is an explicit inductive type.
Fallible construction (`Phrases.__init__`) and loading return `Except`.
-/

/-- Tokens: immutable byte sequences after canonical utf-8 normalization. -/
abbrev Token := String

/-- Embedding of `utils.any2utf8`: normalization to the canonical byte form.
On the embedded token domain (already canonical byte strings) it is the
identity. -/
def any2utf8 (t : Token) : Token := t

/-- Embedding of `utils.to_unicode`: decoding back from the canonical byte
form; the identity on the embedded token domain. -/
def toUnicode (t : Token) : Token := t

/-- The vocabulary `defaultdict(int)`: token -> count, as an association list
whose keys are kept distinct by the update operations. -/
abbrev Vocab := List (Token × Nat)

/-- First-match lookup in the association list (Python `dict` lookup). -/
def vfind : Vocab → Token → Option Nat
  | [], _ => none
  | (k, c) :: rest, t => if k = t then some c else vfind rest t

/-- Read `vocab[t]` with `defaultdict(int)` semantics (missing key reads 0). -/
def vget (v : Vocab) (t : Token) : Nat := (vfind v t).getD 0

/-- Membership test `t in vocab` (no default insertion). -/
def vmem (v : Vocab) (t : Token) : Bool := (vfind v t).isSome

/-- Update `vocab[t] += 1`: increment in place when present, append `(t, 1)`
when absent. -/
def vincr : Vocab → Token → Vocab
  | [], t => [(t, 1)]
  | (k, c) :: rest, t => if k = t then (k, c + 1) :: rest else (k, c) :: vincr rest t

/-- Update `vocab[t] += n` (used when `add_vocab` merges count tables). -/
def vaddN : Vocab → Token → Nat → Vocab
  | [], t, n => [(t, n)]
  | (k, c) :: rest, t, n => if k = t then (k, c + n) :: rest else (k, c) :: vaddN rest t n

/-- Modelled from the spec: `utils.prune_vocab` is code of this repository not
under src/ (only its callers are).  Spec section 3: pruning "removes all
entries with count < current `min_reduce`". -/
def pruneVocab (v : Vocab) (minReduce : Nat) : Vocab :=
  v.filter (fun kv => decide (minReduce ≤ kv.2))

/-- The `threshold` configuration value is a Python float: either an exact
finite value (modelled as a rational) or `+inf` (`float('inf')`). -/
inductive Threshold where
  | fin (q : ℚ)
  | inf
  deriving DecidableEq

/-- The strict comparison `score > threshold` performed by the transforms. -/
def scoreGt (x : ℚ) : Threshold → Bool
  | .fin t => decide (t < x)
  | .inf => false

/-- The constructor test `threshold <= 0`. -/
def Threshold.le0 : Threshold → Bool
  | .fin t => decide (t ≤ 0)
  | .inf => false

/-- The constructor test `threshold < -1`. -/
def Threshold.ltNegOne : Threshold → Bool
  | .fin t => decide (t < -1)
  | .inf => false

/-- The constructor test `threshold > 1`. -/
def Threshold.gtOne : Threshold → Bool
  | .fin t => decide (1 < t)
  | .inf => true

/-- Type of scoring functions: arguments `worda_count`, `wordb_count`,
`bigram_count`, `len_vocab`, `min_count`, `corpus_word_count` (all passed as
floats by the callers, modelled as exact rationals). -/
abbrev ScoreFn := ℚ → ℚ → ℚ → ℚ → ℚ → ℚ → ℚ

/-- Embedding of `original_scorer` (the Mikolov word2vec collocation score):
`(bigram_count - min_count) / worda_count / wordb_count * len_vocab`. -/
def originalScorer : ScoreFn := fun worda_count wordb_count bigram_count len_vocab min_count _ =>
  (bigram_count - min_count) / worda_count / wordb_count * len_vocab

/-- Embedding of `npmi_scorer`.  The transcendental `math.log` has no exact
embedding into the rational score domain, so the logarithm is passed in as a
parameter `rlog`; no theorem below depends on its values. -/
def npmiScorer (rlog : ℚ → ℚ) : ScoreFn :=
  fun worda_count wordb_count bigram_count _ _ corpus_word_count =>
    let pa := worda_count / corpus_word_count
    let pb := wordb_count / corpus_word_count
    let pab := bigram_count / corpus_word_count
    rlog (pab / (pa * pb)) / -(rlog pab)

/-- `delimiter.join((a, b))`: glue two tokens into a compound key. -/
def joinTok (delimiter : String) (a b : Token) : Token := a ++ delimiter ++ b

/-- State of a `Phrases` model (the fields set by `Phrases.__init__`). -/
structure PhrasesModel where
  min_count : ℤ
  threshold : Threshold
  max_vocab_size : Nat
  vocab : Vocab
  min_reduce : Nat
  delimiter : String
  progress_per : Nat
  corpus_word_count : Nat
  scoring : ScoreFn

/-- The scoring call shared by `Phrases.__getitem__` and `export_phrases`:
counts are read from the vocabulary and passed as floats, `len_vocab` is the
number of distinct keys, `corpus_word_count` the accumulated total. -/
def scoreOf (m : PhrasesModel) (word_a word_b bigram_word : Token) : ℚ :=
  m.scoring (vget m.vocab word_a) (vget m.vocab word_b) (vget m.vocab bigram_word)
    (m.vocab.length) (m.min_count) (m.corpus_word_count)

/-- The per-pair acceptance test of `Phrases.__getitem__` / `export_phrases`
(everything except the `last_bigram` non-overlap flag): both words in the
vocabulary, the compound key in the vocabulary, `score > threshold`, and
`bigram_count >= min_count`. -/
def phrasesQual (m : PhrasesModel) (word_a word_b : Token) : Bool :=
  vmem m.vocab word_a && vmem m.vocab word_b &&
    (let bigram_word := joinTok m.delimiter word_a word_b
     vmem m.vocab bigram_word &&
       scoreGt (scoreOf m word_a word_b bigram_word) m.threshold &&
       decide ((m.min_count : ℚ) ≤ ((vget m.vocab bigram_word : ℕ) : ℚ)))

/-- The pair loop of the single-sentence transforms (`Phrases.__getitem__` and
`Phraser.__getitem__` share this shape): walk `zip(s, s[1:])` carrying the
`last_bigram` flag; on a qualifying pair emit the compound token and set the
flag, otherwise emit `word_a` unless the flag is set, then clear the flag.
Returns the emitted tokens and the final flag. -/
def pairLoop (q : Token → Token → Bool) (j : Token → Token → Token) :
    List (Token × Token) → Bool → List Token × Bool
  | [], last => ([], last)
  | (a, b) :: rest, last =>
    if q a b && !last then
      let r := pairLoop q j rest true
      (j a b :: r.1, r.2)
    else if !last then
      let r := pairLoop q j rest false
      (a :: r.1, r.2)
    else
      pairLoop q j rest false

/-- A full single-sentence pass: run the pair loop, then (`if s:` in the
source) append the final token `s[-1]` unless it was consumed by a merge. -/
def sentenceLoop (q : Token → Token → Bool) (j : Token → Token → Token)
    (s : List Token) : List Token :=
  let r := pairLoop q j (s.zip s.tail) false
  match s.getLast? with
  | none => r.1
  | some w => if r.2 then r.1 else r.1 ++ [w]

/-- `Phrases.__getitem__` on a single sentence. -/
def phrasesTransformSentence (m : PhrasesModel) (sentence : List Token) : List Token :=
  let s := sentence.map any2utf8
  (sentenceLoop (phrasesQual m) (joinTok m.delimiter) s).map toUnicode

/-- Second definition, following the words of the spec (claims C1/C2, spec
sections 4.3/4.4/8): scan adjacent pairs left to right; replace a qualifying
pair by its compound token, consuming both tokens so the pair starting at the
second token is skipped (greedy, non-overlapping); the final token is emitted
unchanged when not consumed by a merge. -/
def specGreedyMerge (q : Token → Token → Bool) (j : Token → Token → Token) :
    List Token → List Token
  | [] => []
  | [a] => [a]
  | a :: b :: rest =>
    if q a b then j a b :: specGreedyMerge q j rest
    else a :: specGreedyMerge q j (b :: rest)

/-- State threaded through `Phrases.learn_vocab`: the fresh vocabulary, the
local `min_reduce` (starting at 1), and the running `total_words`. -/
structure LVState where
  vocab : Vocab
  minReduce : Nat
  total : Nat
  deriving Repr

/-- The inner pair loop of `learn_vocab`: for each adjacent pair, increment
the count of the first token and of the delimiter-joined compound key (the
caller adds 1 to `total_words` per pair via the zip length). -/
def pairCounts (delimiter : String) : Vocab → List (Token × Token) → Vocab
  | v, [] => v
  | v, (a, b) :: rest =>
    pairCounts delimiter (vincr (vincr v a) (joinTok delimiter a b)) rest

/-- One sentence of `learn_vocab` (before the pruning check): count all
adjacent pairs, add the pair count to `total_words`, then (`if sentence:`)
increment the count of the final token `sentence[-1]` and `total_words`. -/
def learnSentence (delimiter : String) (v : Vocab) (total : Nat)
    (sentence : List Token) : Vocab × Nat :=
  let s := sentence.map any2utf8
  let v1 := pairCounts delimiter v (s.zip s.tail)
  let t1 := total + (s.zip s.tail).length
  match s with
  | [] => (v1, t1)
  | a :: l => (vincr v1 ((a :: l).getLast (List.cons_ne_nil a l)), t1 + 1)

/-- One iteration of the `learn_vocab` sentence loop: count the sentence, then
prune with the current `min_reduce` and advance it, but only when the
vocabulary size exceeds `max_vocab_size`. -/
def learnStep (max_vocab_size : Nat) (delimiter : String) (st : LVState)
    (sentence : List Token) : LVState :=
  let r := learnSentence delimiter st.vocab st.total sentence
  if max_vocab_size < r.1.length then
    { vocab := pruneVocab r.1 st.minReduce, minReduce := st.minReduce + 1, total := r.2 }
  else
    { vocab := r.1, minReduce := st.minReduce, total := r.2 }

/-- Embedding of the static method `Phrases.learn_vocab` (progress logging
omitted): returns the final `min_reduce`, the collected vocabulary and the
total word count. -/
def learnVocab (sentences : List (List Token)) (max_vocab_size : Nat)
    (delimiter : String) : LVState :=
  sentences.foldl (learnStep max_vocab_size delimiter)
    { vocab := [], minReduce := 1, total := 0 }

/-- The merge loop of `add_vocab`: `self.vocab[word] += count` for every entry
of the freshly learned vocabulary. -/
def mergeCounts (base : Vocab) (fresh : Vocab) : Vocab :=
  fresh.foldl (fun acc kv => vaddN acc kv.1 kv.2) base

/-- Embedding of `Phrases.add_vocab`: learn into a fresh vocabulary, add the
total to `corpus_word_count`; when the model vocabulary is nonempty, take
`max` of the `min_reduce` values, sum counts per token, and re-prune (then
advance `min_reduce`) when the merged size exceeds `max_vocab_size`;
otherwise adopt the fresh vocabulary directly. -/
def addVocab (m : PhrasesModel) (sentences : List (List Token)) : PhrasesModel :=
  let r := learnVocab sentences m.max_vocab_size m.delimiter
  let m1 := { m with corpus_word_count := m.corpus_word_count + r.total }
  if 0 < m1.vocab.length then
    let mr := max m1.min_reduce r.minReduce
    let merged := mergeCounts m1.vocab r.vocab
    if m1.max_vocab_size < merged.length then
      { m1 with vocab := pruneVocab merged mr, min_reduce := mr + 1 }
    else
      { m1 with vocab := merged, min_reduce := mr }
  else
    { m1 with vocab := r.vocab }

/-- The per-sentence yield loop of `Phrases.export_phrases` in `as_tuples`
form: yield `((word_a, word_b), score)` for each accepted pair, with the same
acceptance test and `last_bigram` non-overlap flag as the transform. -/
def exportPairsScored (m : PhrasesModel) :
    List (Token × Token) → Bool → List ((Token × Token) × ℚ)
  | [], _ => []
  | (a, b) :: rest, last =>
    if phrasesQual m a b && !last then
      ((a, b), scoreOf m a b (joinTok m.delimiter a b)) :: exportPairsScored m rest true
    else
      exportPairsScored m rest false

/-- Embedding of `Phrases.export_phrases` (`as_tuples=True`) over a list of
sentences. -/
def exportPhrases (m : PhrasesModel) (sentences : List (List Token)) :
    List ((Token × Token) × ℚ) :=
  sentences.foldl (fun acc sentence =>
    let s := sentence.map any2utf8
    acc ++ exportPairsScored m (s.zip s.tail) false) []

/-- The split points of one compound vocabulary key in `pseudocorpus`:
`for i in range(1, len(unigrams))` yield the two-token sentence
`[sep.join(unigrams[:i]), sep.join(unigrams[i:])]`.  The source's
`if sep not in k: continue` shortcut is subsumed: a key without the separator
splits into one segment and yields nothing. -/
def splitsOf (sep : String) (k : String) : List (List Token) :=
  let unigrams := k.splitOn sep
  ((List.range unigrams.length).drop 1).map (fun i =>
    [String.intercalate sep (unigrams.take i), String.intercalate sep (unigrams.drop i)])

/-- Embedding of `pseudocorpus`: feed every compound key's splits back as
synthetic two-token sentences. -/
def pseudocorpus (v : Vocab) (sep : String) : List (List Token) :=
  v.foldl (fun acc kv => acc ++ splitsOf sep kv.1) []

/-- The compiled `phrasegrams` mapping: ordered token pair -> (bigram count,
score).  The count slot is an integer because the apply-time default is the
sentinel `(-1, -1)`. -/
abbrev Phrasegrams := List ((Token × Token) × (ℤ × ℚ))

/-- Python `dict.get` on the compiled mapping. -/
def pgFind : Phrasegrams → (Token × Token) → Option (ℤ × ℚ)
  | [], _ => none
  | (k, val) :: rest, key => if k = key then some val else pgFind rest key

/-- Python `dict[key] = val` on the compiled mapping (last write wins). -/
def pgInsert : Phrasegrams → (Token × Token) → (ℤ × ℚ) → Phrasegrams
  | [], key, val => [(key, val)]
  | (k, v0) :: rest, key, val =>
    if k = key then (k, val) :: rest else (k, v0) :: pgInsert rest key val

/-- State of a `Phraser` (the fields set by `Phraser.__init__`). -/
structure PhraserModel where
  threshold : Threshold
  min_count : ℤ
  delimiter : String
  scoring : ScoreFn
  phrasegrams : Phrasegrams

/-- Embedding of `Phraser.__init__`: copy the settings, then populate
`phrasegrams` from `export_phrases` over the pseudo-corpus, storing
`(phrases_model.vocab[delimiter.join(bigram)], score)` per yielded pair. -/
def mkPhraser (m : PhrasesModel) : PhraserModel :=
  { threshold := m.threshold, min_count := m.min_count, delimiter := m.delimiter,
    scoring := m.scoring,
    phrasegrams :=
      (exportPhrases m (pseudocorpus m.vocab m.delimiter)).foldl
        (fun pg p =>
          pgInsert pg p.1 (((vget m.vocab (joinTok m.delimiter p.1.1 p.1.2) : ℕ) : ℤ), p.2))
        [] }

/-- The per-pair acceptance test of `Phraser.__getitem__`:
`phrasegrams.get((word_a, word_b), (-1, -1))[1] > self.threshold`. -/
def phraserQual (p : PhraserModel) (word_a word_b : Token) : Bool :=
  scoreGt ((pgFind p.phrasegrams (word_a, word_b)).getD (-1, -1)).2 p.threshold

/-- `Phraser.__getitem__` on a single sentence. -/
def phraserTransformSentence (p : PhraserModel) (sentence : List Token) : List Token :=
  let s := sentence.map any2utf8
  (sentenceLoop (phraserQual p) (joinTok p.delimiter) s).map toUnicode

/-- The `scoring` argument accepted by `Phrases.__init__`: either a string
naming a built-in, or a custom function together with what Python introspects
about it (its named parameters, via `getargspec`) and whether `pickle.dumps`
succeeds on it. -/
inductive ScoringArg where
  | str (s : String)
  | fn (params : List String) (picklable : Bool) (f : ScoreFn)

/-- The test `scoring == "some string"` on the raw constructor argument. -/
def isStrArg : ScoringArg → String → Bool
  | .str t, s => decide (t = s)
  | .fn _ _ _, _ => false

/-- The six required scoring-function parameter names. -/
def scoringParameters : List String :=
  ["worda_count", "wordb_count", "bigram_count", "len_vocab", "min_count",
   "corpus_word_count"]

/-- Resolution of the `scoring` argument to a concrete function: the strings
"default" and "npmi" resolve to the built-ins (whose parameter lists are the
six required names and which are picklable module-level functions); any other
string is a `ValueError`; a custom function passes through with its
introspected data. -/
def resolveScoring (rlog : ℚ → ℚ) : ScoringArg → Except String (List String × Bool × ScoreFn)
  | .str s =>
    if s = "default" then .ok (scoringParameters, true, originalScorer)
    else if s = "npmi" then .ok (scoringParameters, true, npmiScorer rlog)
    else .error ("unknown scoring method string " ++ s ++ " specified")
  | .fn params picklable f => .ok (params, picklable, f)

/-- The fields assigned by a successful `Phrases.__init__` before any
sentences are processed. -/
def phrasesBase (min_count : ℤ) (threshold : Threshold) (max_vocab_size : Nat)
    (delimiter : String) (progress_per : Nat) (f : ScoreFn) : PhrasesModel :=
  { min_count := min_count, threshold := threshold, max_vocab_size := max_vocab_size,
    vocab := [], min_reduce := 1, delimiter := delimiter, progress_per := progress_per,
    corpus_word_count := 0, scoring := f }

/-- Embedding of `Phrases.__init__`: the validation checks in source order
(`min_count`, `threshold` vs the default / npmi string selections, scoring
string resolution, required-parameter introspection, picklability), then the
field assignments, then `add_vocab(sentences)` when sentences were given. -/
def phrasesNew (rlog : ℚ → ℚ) (sentences : Option (List (List Token)))
    (min_count : ℤ) (threshold : Threshold) (max_vocab_size : Nat)
    (delimiter : String) (progress_per : Nat) (scoring : ScoringArg) :
    Except String PhrasesModel :=
  if min_count ≤ 0 then .error "min_count should be at least 1"
  else if threshold.le0 && isStrArg scoring "default" then
    .error "threshold should be positive for default scoring"
  else if isStrArg scoring "npmi" && (threshold.ltNegOne || threshold.gtOne) then
    .error "threshold should be between -1 and 1 for npmi scoring"
  else
    match resolveScoring rlog scoring with
    | .error e => .error e
    | .ok (params, picklable, f) =>
      if !(scoringParameters.all (fun q => params.contains q)) then
        .error "scoring function missing expected parameters"
      else if !picklable then
        .error "unable to pickle custom Phrases scoring function"
      else
        let m := phrasesBase min_count threshold max_vocab_size delimiter progress_per f
        match sentences with
        | none => .ok m
        | some sents => .ok (addVocab m sents)

/-- The scoring attribute as found on a deserialized older model: absent, a
string, or an already-pluggable function. -/
inductive PersistedScoring where
  | missing
  | str (s : String)
  | fn (f : ScoreFn)

/-- Embedding of the scoring-compatibility shim in `Phrases.load`: a missing
attribute becomes `original_scorer`; the strings "default" / "npmi" resolve
to the built-ins; any other string raises a `ValueError` naming the value; a
function is kept. -/
def loadResolveScoring (rlog : ℚ → ℚ) : PersistedScoring → Except String ScoreFn
  | .missing => .ok originalScorer
  | .str s =>
    if s = "default" then .ok originalScorer
    else if s = "npmi" then .ok (npmiScorer rlog)
    else .error ("failed to load Phrases model with unknown scoring setting " ++ s)
  | .fn f => .ok f

/-- An element of the untyped iterable handed to `__getitem__`: a string
token (so the iterable is a single sentence) or a sentence (so it is a
corpus). -/
inductive StreamElem where
  | tok (t : Token)
  | sent (s : List Token)

/-- Embedding of `_is_single`: peek the first element; an empty iterable is a
single (empty) document; otherwise classify by whether the peeked element is
a string, re-attaching the peeked element to the front. -/
def isSingleCheck : List StreamElem → Bool × List StreamElem
  | [] => (true, [])
  | x :: xs =>
    (match x with
     | .tok _ => true
     | .sent _ => false,
     x :: xs)

/-- Read a (well-formed) single-sentence input as its token list. -/
def asSentence (l : List StreamElem) : List Token :=
  l.filterMap (fun e => match e with | .tok t => some t | .sent _ => none)

/-- Read a (well-formed) corpus input as its list of sentences. -/
def asCorpus (l : List StreamElem) : List (List Token) :=
  l.filterMap (fun e => match e with | .sent s => some s | .tok _ => none)

/-- `Phrases.__getitem__` with its single-vs-corpus dispatch: a corpus is
transformed sentence by sentence (`self._apply`), a single sentence directly. -/
def phrasesGetitem (m : PhrasesModel) (input : List StreamElem) :
    List Token ⊕ List (List Token) :=
  let r := isSingleCheck input
  if r.1 then Sum.inl (phrasesTransformSentence m (asSentence r.2))
  else Sum.inr ((asCorpus r.2).map (phrasesTransformSentence m))

/-- `Phraser.__getitem__` with the same dispatch. -/
def phraserGetitem (p : PhraserModel) (input : List StreamElem) :
    List Token ⊕ List (List Token) :=
  let r := isSingleCheck input
  if r.1 then Sum.inl (phraserTransformSentence p (asSentence r.2))
  else Sum.inr ((asCorpus r.2).map (phraserTransformSentence p))

/-- Number of adjacent pairs over a sentence stream (what claim C3 says
`learn_vocab` returns as its total word count). -/
def totalPairs (sentences : List (List Token)) : Nat :=
  (sentences.map (fun s => (s.zip s.tail).length)).sum

/-- The spec-side count contributed by one sentence to one token: once per
adjacent pair whose first component is the token, once per adjacent pair
whose compound key is the token, and once when the token is the sentence's
final token. -/
def specCount (delimiter : String) (s : List Token) (u : Token) : Nat :=
  (s.zip s.tail).countP (fun ab => decide (ab.1 = u)) +
  (s.zip s.tail).countP (fun ab => decide (joinTok delimiter ab.1 ab.2 = u)) +
  (match s with
   | [] => 0
   | a :: l => if (a :: l).getLast (List.cons_ne_nil a l) = u then 1 else 0)

/-! ### Helper lemmas: the pair loop computes the greedy non-overlapping merge -/

theorem map_any2utf8 (l : List Token) : l.map any2utf8 = l := by
  induction l with
  | nil => rfl
  | cons a t ih => simp [any2utf8, ih]

theorem map_toUnicode (l : List Token) : l.map toUnicode = l := by
  induction l with
  | nil => rfl
  | cons a t ih => simp [toUnicode, ih]

theorem sentenceLoop_nil (q : Token → Token → Bool) (j : Token → Token → Token) :
    sentenceLoop q j [] = [] := rfl

theorem sentenceLoop_single (q : Token → Token → Bool) (j : Token → Token → Token)
    (a : Token) : sentenceLoop q j [a] = [a] := rfl

theorem sentenceLoop_merge_two (q : Token → Token → Bool) (j : Token → Token → Token)
    (a b : Token) (h : q a b = true) : sentenceLoop q j [a, b] = [j a b] := by
  simp [sentenceLoop, pairLoop, h]

theorem sentenceLoop_merge_cons (q : Token → Token → Bool) (j : Token → Token → Token)
    (a b c : Token) (rest : List Token) (h : q a b = true) :
    sentenceLoop q j (a :: b :: c :: rest) = j a b :: sentenceLoop q j (c :: rest) := by
  have hz : (a :: b :: c :: rest).zip (a :: b :: c :: rest).tail =
      (a, b) :: (b, c) :: ((c :: rest).zip rest) := by
    simp [List.zip]
  have hlast : (a :: b :: c :: rest).getLast? = (c :: rest).getLast? := by
    rw [List.getLast?_cons_cons, List.getLast?_cons_cons]
  obtain ⟨w, hw⟩ : ∃ w, (c :: rest).getLast? = some w :=
    ⟨(c :: rest).getLast (List.cons_ne_nil c rest),
      List.getLast?_eq_getLast (c :: rest) (List.cons_ne_nil c rest)⟩
  have hpl : pairLoop q j ((a :: b :: c :: rest).zip (a :: b :: c :: rest).tail) false =
      (j a b :: (pairLoop q j ((c :: rest).zip rest) false).1,
        (pairLoop q j ((c :: rest).zip rest) false).2) := by
    rw [hz]
    simp [pairLoop, h]
  unfold sentenceLoop
  rw [hpl, hlast, hw]
  simp only [List.tail_cons]
  cases hfin : (pairLoop q j ((c :: rest).zip rest) false).2 <;> simp [hfin]

theorem sentenceLoop_skip (q : Token → Token → Bool) (j : Token → Token → Token)
    (a b : Token) (rest : List Token) (h : q a b = false) :
    sentenceLoop q j (a :: b :: rest) = a :: sentenceLoop q j (b :: rest) := by
  have hz : (a :: b :: rest).zip (a :: b :: rest).tail =
      (a, b) :: ((b :: rest).zip rest) := by
    simp [List.zip]
  have hlast : (a :: b :: rest).getLast? = (b :: rest).getLast? :=
    List.getLast?_cons_cons
  obtain ⟨w, hw⟩ : ∃ w, (b :: rest).getLast? = some w :=
    ⟨(b :: rest).getLast (List.cons_ne_nil b rest),
      List.getLast?_eq_getLast (b :: rest) (List.cons_ne_nil b rest)⟩
  have hpl : pairLoop q j ((a :: b :: rest).zip (a :: b :: rest).tail) false =
      (a :: (pairLoop q j ((b :: rest).zip rest) false).1,
        (pairLoop q j ((b :: rest).zip rest) false).2) := by
    rw [hz]
    simp [pairLoop, h]
  unfold sentenceLoop
  rw [hpl, hlast, hw]
  simp only [List.tail_cons]
  cases hfin : (pairLoop q j ((b :: rest).zip rest) false).2 <;> simp [hfin]

theorem sentenceLoop_eq_spec_bounded (q : Token → Token → Bool)
    (j : Token → Token → Token) :
    ∀ (n : Nat) (s : List Token), s.length ≤ n →
      sentenceLoop q j s = specGreedyMerge q j s := by
  intro n
  induction n with
  | zero =>
    intro s hs
    have hnil : s = [] := List.eq_nil_of_length_eq_zero (Nat.le_zero.mp hs)
    subst hnil; rfl
  | succ n ih =>
    intro s hs
    match s with
    | [] => rfl
    | [a] => rfl
    | a :: b :: rest =>
      cases hq : q a b with
      | true =>
        cases rest with
        | nil =>
          rw [sentenceLoop_merge_two q j a b hq]
          simp [specGreedyMerge, hq]
        | cons c r =>
          rw [sentenceLoop_merge_cons q j a b c r hq]
          have hlen : (c :: r).length ≤ n := by
            simp at hs ⊢; omega
          rw [ih (c :: r) hlen]
          simp [specGreedyMerge, hq]
      | false =>
        rw [sentenceLoop_skip q j a b rest hq]
        have hlen : (b :: rest).length ≤ n := by
          simp at hs ⊢; omega
        rw [ih (b :: rest) hlen]
        simp [specGreedyMerge, hq]

theorem sentenceLoop_eq_spec (q : Token → Token → Bool) (j : Token → Token → Token)
    (s : List Token) : sentenceLoop q j s = specGreedyMerge q j s :=
  sentenceLoop_eq_spec_bounded q j s.length s (Nat.le_refl _)

theorem transform_eq_spec_phrases (m : PhrasesModel) (s : List Token) :
    phrasesTransformSentence m s =
      specGreedyMerge (phrasesQual m) (joinTok m.delimiter) s := by
  unfold phrasesTransformSentence
  rw [map_any2utf8, map_toUnicode, sentenceLoop_eq_spec]

theorem transform_eq_spec_phraser (p : PhraserModel) (s : List Token) :
    phraserTransformSentence p s =
      specGreedyMerge (phraserQual p) (joinTok p.delimiter) s := by
  unfold phraserTransformSentence
  rw [map_any2utf8, map_toUnicode, sentenceLoop_eq_spec]

/-! ### Claim C1 -/

/-- C1: for every model state and sentence, `Phrases.__getitem__` computes the
greedy left-to-right non-overlapping merge in which an adjacent pair `(a, b)`
is replaced by `delimiter.join(a, b)` exactly when `a`, `b` and the compound
key are in the vocabulary, the configured score is strictly greater than the
threshold, the compound count is at least `min_count`, and the preceding pair
was not itself merged; in particular, for `[a, b, c]` with both pairs
qualifying the output is `[a_b, c]`, and a final token not consumed by a
merge is emitted unchanged (all of which the recursion `specGreedyMerge`
expresses). -/
theorem phrases_getitem_greedy_spec (m : PhrasesModel) (s : List Token) :
    phrasesTransformSentence m s =
      specGreedyMerge (phrasesQual m) (joinTok m.delimiter) s ∧
    (∀ a b c : Token, phrasesQual m a b = true → phrasesQual m b c = true →
      phrasesTransformSentence m [a, b, c] = [joinTok m.delimiter a b, c]) := by
  refine ⟨transform_eq_spec_phrases m s, ?_⟩
  intro a b c hab _
  rw [transform_eq_spec_phrases]
  simp [specGreedyMerge, hab]

/-- Concrete model for the C1 witness: each of `a`, `b`, `c`, `a_b`, `b_c`
counts 10, a constant custom scoring function with score 1, threshold 0 and
`min_count` 1, so both adjacent pairs of `["a", "b", "c"]` qualify. -/
def c1Model : PhrasesModel :=
  { min_count := 1, threshold := .fin 0, max_vocab_size := 40000000,
    vocab := [("a", 10), ("b", 10), ("c", 10), ("a_b", 10), ("b_c", 10)],
    min_reduce := 1, delimiter := "_", progress_per := 10000,
    corpus_word_count := 100, scoring := fun _ _ _ _ _ _ => 1 }

/-- Witness for C1 at a concrete model where both pairs of `["a", "b", "c"]`
qualify: the transform merges greedily to `["a_b", "c"]`. -/
theorem phrases_getitem_greedy_spec_witness :
    phrasesQual c1Model "a" "b" = true ∧ phrasesQual c1Model "b" "c" = true ∧
    phrasesTransformSentence c1Model ["a", "b", "c"] = ["a_b", "c"] :=
  ⟨by decide, by decide,
    (phrases_getitem_greedy_spec c1Model ["a", "b", "c"]).2 "a" "b" "c"
      (by decide) (by decide)⟩

/-! ### Claim C2 -/

/-- The qualification claimed for the compiled transducer (claim C2, spec
section 4.4): the pair is a key of `phrasegrams` AND its stored score is
strictly greater than the captured threshold. -/
def phraserClaimQual (p : PhraserModel) (word_a word_b : Token) : Bool :=
  match pgFind p.phrasegrams (word_a, word_b) with
  | some val => scoreGt val.2 p.threshold
  | none => false

/-- A trivial stand-in for `math.log` used when instantiating constructions
whose npmi branch is never exercised. -/
def rlogZero : ℚ → ℚ := fun _ => 0

/-- A custom scoring argument (all six required parameter names, picklable,
constant score 0) for exercising the constructor with out-of-range
thresholds. -/
def c2ScoringArg : ScoringArg :=
  .fn scoringParameters true (fun _ _ _ _ _ _ => 0)

/-- C2 counterexample: a Phraser built (through the validated constructor)
from a model with a custom scoring function and `threshold = -2` merges the
pair `("a", "b")` even though it is not a key of `phrasegrams` (the mapping
is empty): the apply-time default `(-1, -1)` makes `-1 > -2` succeed.  The
claim's "if and only if the pair is a key of the compiled phrasegrams
mapping" is therefore false for this constructed Phraser and sentence. -/
theorem phraser_getitem_missing_pair_merge_cex :
    (phrasesNew rlogZero none 5 (Threshold.fin (-2)) 40000000 "_" 10000
        c2ScoringArg).map
      (fun m => (phraserTransformSentence (mkPhraser m) ["a", "b"],
                 pgFind (mkPhraser m).phrasegrams ("a", "b"))) =
      Except.ok (["a_b"], none) := rfl

/-- C2 (amended): the compiled transducer replaces an adjacent pair by the
compound token iff the looked-up score -- taken as the sentinel `-1` when the
pair is absent -- is strictly greater than the captured threshold and the
previous pair was not merged.  Provided the sentinel never passes (i.e.
`-1 > threshold` fails, which holds whenever `threshold ≥ -1`, in particular
for every built-in scoring configuration), this coincides with the claim's
"pair is a key and its stored score is strictly greater than the threshold";
the transform reads neither `min_count` nor the scoring function at apply
time, and trailing-token handling is the same greedy recursion as the full
model's transform. -/
theorem phraser_getitem_amended (p : PhraserModel) (s : List Token)
    (h : scoreGt (-1) p.threshold = false) :
    phraserTransformSentence p s =
      specGreedyMerge (phraserClaimQual p) (joinTok p.delimiter) s ∧
    (∀ (mc : ℤ) (f : ScoreFn),
      phraserTransformSentence { p with min_count := mc, scoring := f } s =
        phraserTransformSentence p s) := by
  constructor
  · rw [transform_eq_spec_phraser]
    have hq : phraserQual p = phraserClaimQual p := by
      funext a b
      unfold phraserQual phraserClaimQual
      cases hf : pgFind p.phrasegrams (a, b) with
      | none => simpa [hf] using h
      | some val => simp [hf]
    rw [hq]
  · intro mc f
    rfl

/-- Concrete Phraser for the C2 witness: threshold 10 (so the sentinel fails)
and one stored phrasegram. -/
def c2Phraser : PhraserModel :=
  { threshold := .fin 10, min_count := 5, delimiter := "_",
    scoring := fun _ _ _ _ _ _ => 0,
    phrasegrams := [(("a", "b"), (12, 50))] }

/-- Witness for the amended C2 at a concrete Phraser whose threshold is not
below the sentinel. -/
theorem phraser_getitem_amended_witness :
    scoreGt (-1) c2Phraser.threshold = false ∧
    phraserTransformSentence c2Phraser ["a", "b"] =
      specGreedyMerge (phraserClaimQual c2Phraser) (joinTok c2Phraser.delimiter)
        ["a", "b"] ∧
    phraserTransformSentence
        { c2Phraser with min_count := 0, scoring := fun _ _ _ _ _ _ => 7 }
        ["a", "b"] =
      phraserTransformSentence c2Phraser ["a", "b"] :=
  ⟨by decide,
    (phraser_getitem_amended c2Phraser ["a", "b"] (by decide)).1,
    (phraser_getitem_amended c2Phraser ["a", "b"] (by decide)).2 0
      (fun _ _ _ _ _ _ => 7)⟩

/-! ### Helper lemmas: vocabulary counting -/

theorem vget_cons (k : Token) (c : Nat) (rest : Vocab) (t : Token) :
    vget ((k, c) :: rest) t = if k = t then c else vget rest t := by
  by_cases h : k = t <;> simp [vget, vfind, h]

theorem vget_nil (t : Token) : vget [] t = 0 := rfl

theorem vget_vincr (v : Vocab) (t u : Token) :
    vget (vincr v t) u = vget v u + (if t = u then 1 else 0) := by
  induction v with
  | nil =>
    by_cases h : t = u <;> simp [vincr, vget, vfind, h]
  | cons kv rest ih =>
    obtain ⟨k, c⟩ := kv
    by_cases hkt : k = t
    · subst hkt
      by_cases hku : k = u <;> simp [vincr, vget_cons, hku]
    · by_cases hku : k = u
      · have htu : ¬ t = u := fun h => hkt (hku.trans h.symm)
        have hut : ¬ u = t := fun h => htu h.symm
        simp [vincr, hkt, vget_cons, hku, htu, hut]
      · simp [vincr, hkt, vget_cons, hku, ih]

theorem vget_vaddN (v : Vocab) (t u : Token) (n : Nat) :
    vget (vaddN v t n) u = vget v u + (if t = u then n else 0) := by
  induction v with
  | nil =>
    by_cases h : t = u <;> simp [vaddN, vget, vfind, h]
  | cons kv rest ih =>
    obtain ⟨k, c⟩ := kv
    by_cases hkt : k = t
    · subst hkt
      by_cases hku : k = u <;> simp [vaddN, vget_cons, hku]
    · by_cases hku : k = u
      · have htu : ¬ t = u := fun h => hkt (hku.trans h.symm)
        have hut : ¬ u = t := fun h => htu h.symm
        simp [vaddN, hkt, vget_cons, hku, htu, hut]
      · simp [vaddN, hkt, vget_cons, hku, ih]

theorem pairCounts_vget (d : String) (u : Token) :
    ∀ (ps : List (Token × Token)) (v : Vocab),
      vget (pairCounts d v ps) u =
        vget v u + ps.countP (fun ab => decide (ab.1 = u)) +
          ps.countP (fun ab => decide (joinTok d ab.1 ab.2 = u)) := by
  intro ps
  induction ps with
  | nil => intro v; simp [pairCounts]
  | cons ab rest ih =>
    intro v
    obtain ⟨a, b⟩ := ab
    rw [pairCounts, ih, vget_vincr, vget_vincr]
    rw [List.countP_cons, List.countP_cons]
    by_cases h1 : a = u <;> by_cases h2 : joinTok d a b = u <;>
      simp [h1, h2] <;> omega

theorem learnSentence_total (d : String) (v : Vocab) (total : Nat)
    (s : List Token) : (learnSentence d v total s).2 = total + s.length := by
  unfold learnSentence
  rw [map_any2utf8]
  match s with
  | [] => simp
  | a :: l =>
    have hz : ((a :: l).zip (a :: l).tail).length = l.length := by
      simp [List.length_zip]
    simp [hz]
    omega

theorem learnSentence_vget (d : String) (v : Vocab) (total : Nat)
    (s : List Token) (u : Token) :
    vget (learnSentence d v total s).1 u = vget v u + specCount d s u := by
  unfold learnSentence specCount
  rw [map_any2utf8]
  match s with
  | [] => simp [pairCounts]
  | a :: l =>
    rw [List.tail_cons]
    show vget (vincr (pairCounts d v ((a :: l).zip l)) _) u = _
    rw [vget_vincr, pairCounts_vget]
    simp
    omega

theorem learnStep_total (mvs : Nat) (d : String) (st : LVState)
    (s : List Token) : (learnStep mvs d st s).total = st.total + s.length := by
  simp only [learnStep]
  split <;> simp [learnSentence_total]

theorem learnVocab_foldl_total (mvs : Nat) (d : String) :
    ∀ (sents : List (List Token)) (st : LVState),
      (sents.foldl (learnStep mvs d) st).total =
        st.total + (sents.map List.length).sum := by
  intro sents
  induction sents with
  | nil => intro st; simp
  | cons s rest ih =>
    intro st
    rw [List.foldl_cons, ih, learnStep_total]
    simp
    omega

/-! ### Claim C3 -/

/-- C3 counterexample: for the single one-token sentence `["a"]`,
`learn_vocab` returns total word count 1 (the source increments
`total_words` for the trailing token as well), whereas the claim's "total
word count equals the number of adjacent pairs counted" predicts 0. -/
theorem learn_vocab_total_words_cex :
    (learnVocab [["a"]] 100 "_").total ≠ totalPairs [["a"]] ∧
    (learnVocab [["a"]] 100 "_").total = 1 ∧ totalPairs [["a"]] = 0 := by
  refine ⟨?_, rfl, rfl⟩
  decide

/-- C3 (amended): for every sentence, `learn_vocab` increments the count of
the first token of every adjacent pair and of the delimiter-joined compound
key of every adjacent pair (one `total_words` increment per pair); after the
pair loop it increments the count of the sentence's final token AND also
increments the total-word counter for it, so the returned total word count
equals the total number of tokens across all sentences (pairs plus one per
nonempty sentence), not the number of pairs. -/
theorem learn_vocab_amended (sentences : List (List Token)) (mvs : Nat)
    (d : String) :
    (learnVocab sentences mvs d).total = (sentences.map List.length).sum ∧
    (∀ (v : Vocab) (total : Nat) (s : List Token) (u : Token),
      vget (learnSentence d v total s).1 u = vget v u + specCount d s u ∧
      (learnSentence d v total s).2 = total + s.length) := by
  constructor
  · unfold learnVocab
    rw [learnVocab_foldl_total]
    simp
  · intro v total s u
    exact ⟨learnSentence_vget d v total s u, learnSentence_total d v total s⟩

/-! ### Helper lemmas: distinct keys and count merging -/

/-- The association list has pairwise-distinct keys (the `dict` invariant). -/
def keysNodup (v : Vocab) : Prop := List.Nodup (v.map Prod.fst)

theorem vmem_iff_mem_keys (v : Vocab) (t : Token) :
    vmem v t = true ↔ t ∈ v.map Prod.fst := by
  induction v with
  | nil => simp [vmem, vfind]
  | cons kv rest ih =>
    obtain ⟨k, c⟩ := kv
    by_cases h : k = t
    · subst h
      simp [vmem, vfind]
    · have h2 : ¬ t = k := fun hh => h hh.symm
      simp [vmem, vfind, h, h2] at ih ⊢
      exact ih

theorem vget_eq_zero_of_not_mem (v : Vocab) (t : Token)
    (h : t ∉ v.map Prod.fst) : vget v t = 0 := by
  induction v with
  | nil => rfl
  | cons kv rest ih =>
    obtain ⟨k, c⟩ := kv
    rw [List.map_cons] at h
    have hk : ¬ k = t := fun hh => h (by rw [hh]; exact List.mem_cons_self _ _)
    have h2 : t ∉ rest.map Prod.fst := fun hm => h (List.mem_cons_of_mem _ hm)
    rw [vget_cons]
    simp [hk]
    exact ih h2

theorem keys_vincr (v : Vocab) (t : Token) :
    (vincr v t).map Prod.fst =
      (if vmem v t = true then v.map Prod.fst else v.map Prod.fst ++ [t]) := by
  induction v with
  | nil => simp [vincr, vmem, vfind]
  | cons kv rest ih =>
    obtain ⟨k, c⟩ := kv
    by_cases h : k = t
    · subst h
      simp [vincr, vmem, vfind]
    · have hm : vmem ((k, c) :: rest) t = vmem rest t := by
        simp [vmem, vfind, h]
      rw [hm]
      cases hv : vmem rest t <;> simp [vincr, h, ih, hv]

theorem keysNodup_vincr (v : Vocab) (t : Token) (h : keysNodup v) :
    keysNodup (vincr v t) := by
  unfold keysNodup at h ⊢
  rw [keys_vincr]
  by_cases hv : vmem v t = true
  · rw [if_pos hv]; exact h
  · rw [if_neg hv]
    have hnm : t ∉ v.map Prod.fst := fun hmem => hv ((vmem_iff_mem_keys v t).mpr hmem)
    rw [List.nodup_append_comm]
    exact List.nodup_cons.mpr ⟨hnm, h⟩

theorem keysNodup_pruneVocab (v : Vocab) (mr : Nat) (h : keysNodup v) :
    keysNodup (pruneVocab v mr) :=
  List.Nodup.sublist (List.Sublist.map Prod.fst (List.filter_sublist v)) h

theorem keysNodup_pairCounts (d : String) :
    ∀ (ps : List (Token × Token)) (v : Vocab), keysNodup v →
      keysNodup (pairCounts d v ps) := by
  intro ps
  induction ps with
  | nil => intro v h; exact h
  | cons ab rest ih =>
    intro v h
    obtain ⟨a, b⟩ := ab
    exact ih _ (keysNodup_vincr _ _ (keysNodup_vincr _ _ h))

theorem keysNodup_learnSentence (d : String) (v : Vocab) (total : Nat)
    (s : List Token) (h : keysNodup v) :
    keysNodup (learnSentence d v total s).1 := by
  unfold learnSentence
  rw [map_any2utf8]
  match s with
  | [] => exact keysNodup_pairCounts d _ v h
  | a :: l =>
    exact keysNodup_vincr _ _ (keysNodup_pairCounts d _ v h)

theorem keysNodup_learnStep (mvs : Nat) (d : String) (st : LVState)
    (s : List Token) (h : keysNodup st.vocab) :
    keysNodup (learnStep mvs d st s).vocab := by
  simp only [learnStep]
  split
  · exact keysNodup_pruneVocab _ _ (keysNodup_learnSentence d st.vocab st.total s h)
  · exact keysNodup_learnSentence d st.vocab st.total s h

theorem keysNodup_learnVocab (sentences : List (List Token)) (mvs : Nat)
    (d : String) : keysNodup (learnVocab sentences mvs d).vocab := by
  unfold learnVocab
  have hgen : ∀ (sents : List (List Token)) (st : LVState), keysNodup st.vocab →
      keysNodup (sents.foldl (learnStep mvs d) st).vocab := by
    intro sents
    induction sents with
    | nil => intro st h; exact h
    | cons s rest ih =>
      intro st h
      exact ih _ (keysNodup_learnStep mvs d st s h)
  exact hgen sentences _ (by simp [keysNodup])

theorem mergeCounts_vget :
    ∀ (fresh : Vocab) (base : Vocab) (u : Token), keysNodup fresh →
      vget (mergeCounts base fresh) u = vget base u + vget fresh u := by
  intro fresh
  induction fresh with
  | nil => intro base u _; simp [mergeCounts, vget, vfind]
  | cons kv rest ih =>
    intro base u hnd
    obtain ⟨k, c⟩ := kv
    have hnd1 : (k :: rest.map Prod.fst).Nodup := hnd
    have hknm : k ∉ rest.map Prod.fst := (List.nodup_cons.mp hnd1).1
    have hnd2 : keysNodup rest := (List.nodup_cons.mp hnd1).2
    have hstep : mergeCounts base ((k, c) :: rest) = mergeCounts (vaddN base k c) rest := rfl
    rw [hstep, ih (vaddN base k c) u hnd2, vget_vaddN, vget_cons]
    by_cases hku : k = u
    · have hnm : u ∉ rest.map Prod.fst := by rw [← hku]; exact hknm
      rw [vget_eq_zero_of_not_mem rest u hnm]
      simp [hku]
    · simp [hku]

/-! ### Claim C4 -/

/-- Concrete model for the C4 counterexample: empty vocabulary,
`max_vocab_size = 1` so the learning pass prunes and returns
`min_reduce = 2`. -/
def c4Base : PhrasesModel :=
  { min_count := 5, threshold := .fin 10, max_vocab_size := 1, vocab := [],
    min_reduce := 1, delimiter := "_", progress_per := 10000,
    corpus_word_count := 0, scoring := fun _ _ _ _ _ _ => 0 }

/-- C4 counterexample: on the first `add_vocab` call on a model whose
vocabulary is still empty, the source takes the adopt-wholesale branch and
leaves `min_reduce` at 1, although `learn_vocab` returned `min_reduce = 2`;
the claim's "min_reduce becomes max(model.min_reduce, newly returned
min_reduce)" (= 2 here) is false for this first call. -/
theorem add_vocab_first_call_cex :
    (addVocab c4Base [["a", "b"]]).min_reduce = 1 ∧
    (learnVocab [["a", "b"]] c4Base.max_vocab_size c4Base.delimiter).minReduce = 2 ∧
    max c4Base.min_reduce
        (learnVocab [["a", "b"]] c4Base.max_vocab_size c4Base.delimiter).minReduce ≠
      (addVocab c4Base [["a", "b"]]).min_reduce := by
  refine ⟨rfl, rfl, ?_⟩
  decide

/-- C4 (amended): `add_vocab` first runs `learn_vocab` into a fresh
vocabulary and adds its total to `corpus_word_count`; merging the fresh
vocabulary increases each token's count by its fresh count; when the model's
vocabulary is nonempty, `min_reduce` becomes `max(model.min_reduce, returned
min_reduce)` (plus one more after a re-prune) and the merged vocabulary is
re-pruned exactly when its size exceeds `max_vocab_size`; but on a call where
the model's vocabulary is still empty (in particular the first call), the
fresh vocabulary is adopted wholesale and `min_reduce` is left unchanged,
with no max-merge and no re-prune. -/
theorem add_vocab_amended (m : PhrasesModel) (sentences : List (List Token)) :
    (addVocab m sentences).corpus_word_count =
      m.corpus_word_count + (learnVocab sentences m.max_vocab_size m.delimiter).total ∧
    (∀ u, vget (mergeCounts m.vocab
        (learnVocab sentences m.max_vocab_size m.delimiter).vocab) u =
      vget m.vocab u +
        vget (learnVocab sentences m.max_vocab_size m.delimiter).vocab u) ∧
    (addVocab m sentences).min_reduce =
      (if 0 < m.vocab.length then
        (if m.max_vocab_size <
            (mergeCounts m.vocab
              (learnVocab sentences m.max_vocab_size m.delimiter).vocab).length
         then max m.min_reduce
            (learnVocab sentences m.max_vocab_size m.delimiter).minReduce + 1
         else max m.min_reduce
            (learnVocab sentences m.max_vocab_size m.delimiter).minReduce)
       else m.min_reduce) ∧
    (addVocab m sentences).vocab =
      (if 0 < m.vocab.length then
        (if m.max_vocab_size <
            (mergeCounts m.vocab
              (learnVocab sentences m.max_vocab_size m.delimiter).vocab).length
         then pruneVocab
            (mergeCounts m.vocab
              (learnVocab sentences m.max_vocab_size m.delimiter).vocab)
            (max m.min_reduce
              (learnVocab sentences m.max_vocab_size m.delimiter).minReduce)
         else mergeCounts m.vocab
            (learnVocab sentences m.max_vocab_size m.delimiter).vocab)
       else (learnVocab sentences m.max_vocab_size m.delimiter).vocab) := by
  refine ⟨?_, fun u => mergeCounts_vget _ m.vocab u
    (keysNodup_learnVocab sentences m.max_vocab_size m.delimiter), ?_, ?_⟩
  · simp only [addVocab]
    split_ifs <;> rfl
  · simp only [addVocab]
    split_ifs <;> rfl
  · simp only [addVocab]
    split_ifs <;> rfl

/-! ### Claim C5 -/

theorem builtin_params_ok :
    (scoringParameters.all (fun q => scoringParameters.contains q)) = true := by
  decide

theorem all_contains_iff (params : List String) :
    (scoringParameters.all (fun q => params.contains q)) = true ↔
      ∀ q ∈ scoringParameters, q ∈ params := by
  simp [List.all_eq_true]

theorem phrasesNew_error_indep (rlog : ℚ → ℚ)
    (sentences : Option (List (List Token))) (mc : ℤ) (th : Threshold)
    (mvs : Nat) (d : String) (pp : Nat) (sc : ScoringArg) (e : String) :
    phrasesNew rlog sentences mc th mvs d pp sc = .error e ↔
      phrasesNew rlog none mc th mvs d pp sc = .error e := by
  unfold phrasesNew
  split_ifs <;> try rfl
  cases hr : resolveScoring rlog sc with
  | error e2 => simp
  | ok t =>
    obtain ⟨params, pk, f⟩ := t
    simp only
    split_ifs <;> try rfl
    cases sentences <;> simp

/-- C5: construction fails with a configuration error exactly when:
`min_count ≤ 0`; or `threshold ≤ 0` with the string "default" selected; or
the string "npmi" selected with `threshold` outside `[-1, 1]`; or an
unrecognized scoring string; or a custom scoring function missing one of the
six required parameter names; or a custom scoring function that cannot be
pickled.  Moreover the outcome (and in particular any error) is identical
whether or not a sentence stream is supplied, i.e. the error is raised
before any sentences are processed. -/
theorem phrases_init_error_cases (rlog : ℚ → ℚ)
    (sentences : Option (List (List Token))) (mc : ℤ) (th : Threshold)
    (mvs : Nat) (d : String) (pp : Nat) (sc : ScoringArg) :
    ((∃ e, phrasesNew rlog sentences mc th mvs d pp sc = .error e) ↔
      (mc ≤ 0 ∨
       (th.le0 = true ∧ sc = ScoringArg.str "default") ∨
       (sc = ScoringArg.str "npmi" ∧ (th.ltNegOne = true ∨ th.gtOne = true)) ∨
       (∃ s, sc = ScoringArg.str s ∧ s ≠ "default" ∧ s ≠ "npmi") ∨
       (∃ params picklable f, sc = ScoringArg.fn params picklable f ∧
          ¬ ∀ q ∈ scoringParameters, q ∈ params) ∨
       (∃ params f, sc = ScoringArg.fn params false f))) ∧
    (∀ e, phrasesNew rlog sentences mc th mvs d pp sc = .error e ↔
          phrasesNew rlog none mc th mvs d pp sc = .error e) := by
  refine ⟨?_, fun e => phrasesNew_error_indep rlog sentences mc th mvs d pp sc e⟩
  cases sc with
  | str s =>
    by_cases hmc : mc ≤ 0
    · simp [phrasesNew, hmc]
    · by_cases hs1 : s = "default"
      · subst hs1
        by_cases hle : th.le0 = true
        · simp [phrasesNew, hmc, isStrArg, hle]
        · cases sentences <;>
            simp [phrasesNew, hmc, isStrArg, hle, resolveScoring,
              builtin_params_ok]
      · by_cases hs2 : s = "npmi"
        · subst hs2
          by_cases hth : (th.ltNegOne || th.gtOne) = true
          · simp only [Bool.or_eq_true] at hth
            simp [phrasesNew, hmc, isStrArg, hth]
          · simp only [Bool.or_eq_true] at hth
            push_neg at hth
            cases sentences <;>
              simp [phrasesNew, hmc, isStrArg, resolveScoring,
                builtin_params_ok, hth.1, hth.2]
        · simp [phrasesNew, hmc, isStrArg, hs1, hs2, resolveScoring]
  | fn params pk f =>
    by_cases hmc : mc ≤ 0
    · simp [phrasesNew, hmc]
    · by_cases hall : (scoringParameters.all (fun q => params.contains q)) = true
      · have hnex : ¬ ∃ x ∈ scoringParameters, x ∉ params := by
          push_neg
          exact (all_contains_iff params).mp hall
        cases pk with
        | true =>
          cases sentences <;>
            simp [phrasesNew, hmc, isStrArg, resolveScoring, hall, hnex]
        | false =>
          simp [phrasesNew, hmc, isStrArg, resolveScoring, hall, hnex]
      · have hnall : ¬ ∀ q ∈ scoringParameters, q ∈ params :=
          fun h => hall ((all_contains_iff params).mpr h)
        have hex : ∃ x ∈ scoringParameters, x ∉ params := by
          push_neg at hnall
          exact hnall
        simp [phrasesNew, hmc, isStrArg, resolveScoring, hall, hnall, hex]

/-! ### Claim C6 -/

theorem specGreedyMerge_id (q : Token → Token → Bool) (j : Token → Token → Token)
    (hq : ∀ a b, q a b = false) : ∀ s, specGreedyMerge q j s = s := by
  intro s
  induction s with
  | nil => rfl
  | cons a tail ih =>
    cases tail with
    | nil => rfl
    | cons b rest => simp [specGreedyMerge, hq, ih]

theorem addVocab_threshold (m : PhrasesModel) (sents : List (List Token)) :
    (addVocab m sents).threshold = m.threshold := by
  simp only [addVocab]
  split_ifs <;> rfl

theorem phraser_identity_of_inf (m : PhrasesModel)
    (hth : m.threshold = Threshold.inf) (s : List Token) :
    phraserTransformSentence (mkPhraser m) s = s := by
  rw [transform_eq_spec_phraser]
  refine specGreedyMerge_id _ _ (fun a b => ?_) s
  unfold phraserQual
  have h2 : (mkPhraser m).threshold = Threshold.inf := hth
  rw [h2]
  rfl

/-- C6: a Phraser compiled from a Phrases model trained (via the validated
constructor, default scoring) on any sentences with `threshold = +inf`
transforms every sentence to itself: no stored score is ever strictly
greater than `+inf`, so no merge occurs. -/
theorem phraser_inf_threshold_identity (rlog : ℚ → ℚ)
    (sents : List (List Token)) (s : List Token) :
    (phrasesNew rlog (some sents) 5 Threshold.inf 40000000 "_" 10000
        (ScoringArg.str "default")).map
      (fun m => phraserTransformSentence (mkPhraser m) s) = Except.ok s := by
  have hnew : phrasesNew rlog (some sents) 5 Threshold.inf 40000000 "_" 10000
      (ScoringArg.str "default") =
      Except.ok (addVocab
        (phrasesBase 5 Threshold.inf 40000000 "_" 10000 originalScorer) sents) := rfl
  rw [hnew]
  show Except.ok _ = Except.ok s
  congr 1
  exact phraser_identity_of_inf _ (addVocab_threshold _ sents) s

/-! ### Claim C7 -/

/-- C7: over exact rational arithmetic, for nonzero `worda_count` and
`wordb_count`, the built-in default scorer equals
`(bigram_count - min_count) * len_vocab / (worda_count * wordb_count)`. -/
theorem original_scorer_formula (worda_count wordb_count bigram_count
    len_vocab min_count corpus_word_count : ℚ)
    (ha : worda_count ≠ 0) (hb : wordb_count ≠ 0) :
    originalScorer worda_count wordb_count bigram_count len_vocab min_count
        corpus_word_count =
      (bigram_count - min_count) * len_vocab / (worda_count * wordb_count) := by
  unfold originalScorer
  field_simp

/-- Witness for C7 at concrete nonzero counts. -/
theorem original_scorer_formula_witness :
    (10 : ℚ) ≠ 0 ∧ (5 : ℚ) ≠ 0 ∧
    originalScorer 10 5 7 3 2 100 = (7 - 2) * 3 / (10 * 5) :=
  ⟨by decide, by decide,
    original_scorer_formula 10 5 7 3 2 100 (by decide) (by decide)⟩

/-! ### Claim C8 -/

theorem learnStep_minReduce_mono (mvs : Nat) (d : String) (st : LVState)
    (s : List Token) : st.minReduce ≤ (learnStep mvs d st s).minReduce := by
  simp only [learnStep]
  split <;> simp

theorem learnVocab_foldl_minReduce (mvs : Nat) (d : String) :
    ∀ (sents : List (List Token)) (st : LVState),
      st.minReduce ≤ (sents.foldl (learnStep mvs d) st).minReduce := by
  intro sents
  induction sents with
  | nil => intro st; exact Nat.le_refl _
  | cons s rest ih =>
    intro st
    exact le_trans (learnStep_minReduce_mono mvs d st s) (ih _)

/-- C8: `min_reduce` starts at 1 (both in a freshly constructed model and in
`learn_vocab`'s local state) and never decreases across the learning
operations, and pruning is triggered only when the vocabulary's distinct-key
count exceeds `max_vocab_size`: a `learn_vocab` step whose counted vocabulary
stays within the cap leaves it unpruned and `min_reduce` unchanged, and an
`add_vocab` merge whose merged size stays within the cap keeps the merged
vocabulary and takes the plain max of the `min_reduce` values. -/
theorem min_reduce_invariants :
    (∀ (mc : ℤ) (th : Threshold) (mvs : Nat) (d : String) (pp : Nat) (f : ScoreFn),
        (phrasesBase mc th mvs d pp f).min_reduce = 1) ∧
    (∀ (mvs : Nat) (d : String), (learnVocab [] mvs d).minReduce = 1) ∧
    (∀ (sents : List (List Token)) (mvs : Nat) (d : String),
        1 ≤ (learnVocab sents mvs d).minReduce) ∧
    (∀ (mvs : Nat) (d : String) (st : LVState) (s : List Token),
        st.minReduce ≤ (learnStep mvs d st s).minReduce) ∧
    (∀ (m : PhrasesModel) (sents : List (List Token)),
        m.min_reduce ≤ (addVocab m sents).min_reduce) ∧
    (∀ (mvs : Nat) (d : String) (st : LVState) (s : List Token),
        (learnSentence d st.vocab st.total s).1.length ≤ mvs →
        (learnStep mvs d st s).vocab = (learnSentence d st.vocab st.total s).1 ∧
        (learnStep mvs d st s).minReduce = st.minReduce) ∧
    (∀ (m : PhrasesModel) (sents : List (List Token)), 0 < m.vocab.length →
        (mergeCounts m.vocab
          (learnVocab sents m.max_vocab_size m.delimiter).vocab).length ≤
            m.max_vocab_size →
        (addVocab m sents).vocab =
          mergeCounts m.vocab (learnVocab sents m.max_vocab_size m.delimiter).vocab ∧
        (addVocab m sents).min_reduce =
          max m.min_reduce (learnVocab sents m.max_vocab_size m.delimiter).minReduce) := by
  refine ⟨fun mc th mvs d pp f => rfl, fun mvs d => rfl, ?_, learnStep_minReduce_mono,
    ?_, ?_, ?_⟩
  · intro sents mvs d
    unfold learnVocab
    exact learnVocab_foldl_minReduce mvs d sents { vocab := [], minReduce := 1, total := 0 }
  · intro m sents
    simp only [addVocab]
    split_ifs <;> simp
    all_goals omega
  · intro mvs d st s h
    simp only [learnStep]
    rw [if_neg (Nat.not_lt.mpr h)]
    exact ⟨rfl, rfl⟩
  · intro m sents h1 h2
    simp only [addVocab]
    split_ifs with hc1
    · exact absurd hc1 (Nat.not_lt.mpr h2)
    · exact ⟨rfl, rfl⟩

/-- Concrete learning state for the C8 witness. -/
def c8State : LVState := { vocab := [], minReduce := 1, total := 0 }

/-- Concrete model (nonempty vocabulary, large cap) for the C8 witness. -/
def c8Model : PhrasesModel :=
  { min_count := 1, threshold := .fin 0, max_vocab_size := 100,
    vocab := [("x", 3)], min_reduce := 2, delimiter := "_",
    progress_per := 10000, corpus_word_count := 5,
    scoring := fun _ _ _ _ _ _ => 1 }

/-- Witness for C8: the conditional parts instantiated at concrete inputs
within the cap. -/
theorem min_reduce_invariants_witness :
    (learnSentence "_" c8State.vocab c8State.total ["a", "b"]).1.length ≤ 100 ∧
    (learnStep 100 "_" c8State ["a", "b"]).vocab =
      (learnSentence "_" c8State.vocab c8State.total ["a", "b"]).1 ∧
    (learnStep 100 "_" c8State ["a", "b"]).minReduce = c8State.minReduce ∧
    0 < c8Model.vocab.length ∧
    (mergeCounts c8Model.vocab
        (learnVocab [["a"]] c8Model.max_vocab_size c8Model.delimiter).vocab).length ≤
      c8Model.max_vocab_size ∧
    (addVocab c8Model [["a"]]).vocab =
      mergeCounts c8Model.vocab
        (learnVocab [["a"]] c8Model.max_vocab_size c8Model.delimiter).vocab ∧
    (addVocab c8Model [["a"]]).min_reduce =
      max c8Model.min_reduce
        (learnVocab [["a"]] c8Model.max_vocab_size c8Model.delimiter).minReduce :=
  ⟨by decide,
    (min_reduce_invariants.2.2.2.2.2.1 100 "_" c8State ["a", "b"] (by decide)).1,
    (min_reduce_invariants.2.2.2.2.2.1 100 "_" c8State ["a", "b"] (by decide)).2,
    by decide, by decide,
    (min_reduce_invariants.2.2.2.2.2.2 c8Model [["a"]] (by decide) (by decide)).1,
    (min_reduce_invariants.2.2.2.2.2.2 c8Model [["a"]] (by decide) (by decide)).2⟩

/-! ### Claim C9 -/

/-- C9: the load-time scoring shim resolves a missing scoring attribute to
the built-in default scorer, the strings "default" / "npmi" to the
corresponding built-ins, and fails on any other string with an error naming
the unknown value. -/
theorem load_scoring_resolution (rlog : ℚ → ℚ) :
    loadResolveScoring rlog PersistedScoring.missing = Except.ok originalScorer ∧
    loadResolveScoring rlog (PersistedScoring.str "default") =
      Except.ok originalScorer ∧
    loadResolveScoring rlog (PersistedScoring.str "npmi") =
      Except.ok (npmiScorer rlog) ∧
    (∀ s : String, s ≠ "default" → s ≠ "npmi" →
      loadResolveScoring rlog (PersistedScoring.str s) =
        Except.error
          ("failed to load Phrases model with unknown scoring setting " ++ s)) := by
  refine ⟨rfl, rfl, rfl, ?_⟩
  intro s h1 h2
  simp [loadResolveScoring, h1, h2]

/-- Witness for C9 at the concrete unknown scoring string "xxx". -/
theorem load_scoring_resolution_witness :
    ("xxx" : String) ≠ "default" ∧ ("xxx" : String) ≠ "npmi" ∧
    loadResolveScoring rlogZero (PersistedScoring.str "xxx") =
      Except.error
        ("failed to load Phrases model with unknown scoring setting " ++ "xxx") :=
  ⟨by decide, by decide,
    (load_scoring_resolution rlogZero).2.2.2 "xxx" (by decide) (by decide)⟩

/-! ### Claim C10 -/

/-- C10: the single-vs-corpus dispatch of both `__getitem__` operators
classifies the empty iterable as a single (empty) sentence and returns the
empty token list; for a nonempty input the classification depends only on
whether the first element is a string (token); and the peeked element is
restored, so no element of the input is lost. -/
theorem single_corpus_dispatch :
    (∀ m : PhrasesModel, phrasesGetitem m [] = Sum.inl []) ∧
    (∀ p : PhraserModel, phraserGetitem p [] = Sum.inl []) ∧
    (∀ (x : StreamElem) (xs ys : List StreamElem),
        (isSingleCheck (x :: xs)).1 = (isSingleCheck (x :: ys)).1) ∧
    (∀ (t : Token) (xs : List StreamElem),
        (isSingleCheck (StreamElem.tok t :: xs)).1 = true) ∧
    (∀ (s : List Token) (xs : List StreamElem),
        (isSingleCheck (StreamElem.sent s :: xs)).1 = false) ∧
    (∀ l : List StreamElem, (isSingleCheck l).2 = l) := by
  refine ⟨fun m => rfl, fun p => rfl, ?_, fun t xs => rfl, fun s xs => rfl, ?_⟩
  · intro x xs ys
    cases x <;> rfl
  · intro l
    cases l with
    | nil => rfl
    | cons x xs => cases x <;> rfl
